import Mathlib

/-!
Verification development for the `@quave/logger` repository.

The JavaScript sources are embedded shallowly:

* `JSVal` models the untrusted JavaScript values that flow into the error
  utilities and the logger facade.  Property reads can throw (a getter is
  stored together with a `throws` flag) and an object's string conversion
  can throw (the `toStrThrows` flag), which is exactly the hostileness the
  spec talks about.  Functions, symbols and IEEE-754 specifics (NaN and
  non-integral numbers) are outside the model; numbers are `Int`.
* Fallible JavaScript code is translated to `Except JSVal _` where the
  `error` payload is the thrown JavaScript value.
* `process.env.NODE_ENV` is the explicit parameter `nodeEnv : Option String`
  (`none` models an unset variable).
* The Slack transport's field sanitizer is embedded twice, matching the two
  data models the claims need: a plain tree model (`JVal`, acyclic values)
  and a heap model (`HNode`, which can express cyclic object graphs by
  indices into a heap).
-/

/-! ## JavaScript value model -/

mutual
/-- An untrusted JavaScript value.  `object` carries a property list whose
entries can be throwing getters, plus the behaviour of its string
conversion (`toStrThrows` and `toStrVal` describe what `toString` does). -/
inductive JSVal where
  | undef
  | null
  | boolean (b : Bool)
  | number (n : Int)
  | str (s : String)
  | array (elems : JSValList)
  | object (props : JSPropList) (toStrThrows : Bool) (toStrVal : JSVal)
/-- A list of JavaScript values (elements of an array). -/
inductive JSValList where
  | nil
  | cons (hd : JSVal) (tl : JSValList)
/-- A property list: each entry is a name together with either a plain value
(`throws = false`) or a getter that throws `v` (`throws = true`). -/
inductive JSPropList where
  | nil
  | cons (name : String) (throws : Bool) (v : JSVal) (tl : JSPropList)
end

/-- JavaScript truthiness (`Boolean(v)`). -/
def truthy : JSVal → Bool
  | .undef => false
  | .null => false
  | .boolean b => b
  | .number n => n != 0
  | .str s => s != ""
  | .array _ => true
  | .object _ _ _ => true

/-- The `typeof` operator restricted to the modelled values. -/
def typeofStr : JSVal → String
  | .undef => "undefined"
  | .null => "object"
  | .boolean _ => "boolean"
  | .number _ => "number"
  | .str _ => "string"
  | .array _ => "object"
  | .object _ _ _ => "object"

/-- A `TypeError` value as thrown by the runtime: an object with a string
`message`, a `name`, and a benign string conversion. -/
def typeError (m : String) : JSVal :=
  .object (.cons "message" false (.str m) (.cons "name" false (.str "TypeError") .nil)) false
    (.str ("TypeError: " ++ m))

/-- First property entry with the given name, if any. -/
def JSPropList.findProp : JSPropList → String → Option (Bool × JSVal)
  | .nil, _ => none
  | .cons n th v tl, k => if n == k then some (th, v) else tl.findProp k

/-- Property read `v[k]`.  Reading on `null`/`undefined` throws; a throwing
getter rethrows its payload; a missing property is `undefined`.  Primitives
and arrays are modelled without own properties (the string methods the
sources use on them are modelled separately). -/
def getProp (v : JSVal) (k : String) : Except JSVal JSVal :=
  match v with
  | .undef => .error (typeError ("Cannot read properties of undefined, reading " ++ k))
  | .null => .error (typeError ("Cannot read properties of null, reading " ++ k))
  | .object props _ _ =>
      match props.findProp k with
      | some (true, e) => .error e
      | some (false, val) => .ok val
      | none => .ok .undef
  | _ => .ok .undef

mutual
/-- JavaScript `String(v)` (also the conversion used by template literals).
Primitives convert directly; arrays join their elements with `","`
(`null`/`undefined` elements become `""`); an object uses its `toString`,
which may throw, and must produce a primitive. -/
def jsToString : JSVal → Except JSVal String
  | .undef => .ok "undefined"
  | .null => .ok "null"
  | .boolean b => .ok (if b then "true" else "false")
  | .number n => .ok (toString n)
  | .str s => .ok s
  | .array es => jsJoin es
  | .object _ tThrows tVal =>
      if tThrows then .error tVal
      else
        match tVal with
        | .object _ _ _ => .error (typeError "Cannot convert object to primitive value")
        | .array _ => .error (typeError "Cannot convert object to primitive value")
        | tv => jsToString tv

/-- `Array.prototype.join(",")` as used by array string conversion. -/
def jsJoin : JSValList → Except JSVal String
  | .nil => .ok ""
  | .cons v tl => do
      let s ← (match v with
        | .null => pure ""
        | .undef => pure ""
        | v => jsToString v)
      let rest ← jsJoin tl
      pure (match tl with
        | .nil => s
        | _ => s ++ "," ++ rest)
end

/-- Whether `pat` is a prefix of `l` (character lists, case sensitive). -/
def charsIsPrefix : List Char → List Char → Bool
  | [], _ => true
  | _ :: _, [] => false
  | a :: as, b :: bs => a == b && charsIsPrefix as bs

/-- Whether `pat` occurs inside `l` (character lists, case sensitive). -/
def charsHasSubstr (pat : List Char) : List Char → Bool
  | [] => charsIsPrefix pat []
  | c :: rest => charsIsPrefix pat (c :: rest) || charsHasSubstr pat rest

/-- `String.prototype.includes`: case-sensitive substring test. -/
def jsStrIncludes (s pat : String) : Bool := charsHasSubstr pat.data s.data

/-- Did this computation throw? -/
def throws {α : Type} (e : Except JSVal α) : Bool :=
  match e with
  | .error _ => true
  | .ok _ => false

/-! ## src/utils/errors.js -/

/-- The flat field mapping produced by `extractErrorFields`
(`NormalizedErrorFields` in the spec).  A key that the JavaScript object does
not carry is `none`; `errorFormatInvalid` is only ever set to `true`, so a
`Bool` (`false` = key absent) models it exactly. -/
structure ErrorFields where
  errorMessage : Option String := none
  errorReason : Option String := none
  errorDetails : Option String := none
  errorStack : Option String := none
  errorFormatInvalid : Bool := false
  errorFormatError : Option String := none
  errorRawValue : Option String := none
  errorRawMessage : Option String := none
  errorRawReason : Option String := none
  errorRawDetails : Option String := none
deriving Repr, DecidableEq

/-- The `fields.errorFormatError ? prev + "; " + msg : msg` update used for
the reason/details/stack clauses (string truthiness: `""` is falsy). -/
def appendFormatError (cur : Option String) (msg : String) : Option String :=
  match cur with
  | some prev => if prev != "" then some (prev ++ "; " ++ msg) else some msg
  | none => some msg

/-- Body of the `try` block of `extractErrorFields` (errors.js lines
100-169): type check, dead null branch, then the four field inspections in
source order.  Any throw (hostile getter, hostile nested string conversion)
propagates to the caller's `catch`. -/
def extractTry (error : JSVal) : Except JSVal ErrorFields := do
  if typeofStr error != "object" then
    let raw ← jsToString error
    return { errorFormatInvalid := true,
             errorFormatError := some ("Expected error to be an object, but received " ++ typeofStr error),
             errorRawValue := some raw }
  if error matches .null then
    return { errorFormatInvalid := true, errorFormatError := some "Error object is null" }
  let mv ← getProp error "message"
  let f1 : ErrorFields ←
    match mv with
    | .undef => pure {}
    | .str s => pure { errorMessage := some s }
    | .number n => pure { errorMessage := some (toString n) }
    | v => do
        let raw ← jsToString v
        pure { errorFormatInvalid := true,
               errorFormatError := some "error.message must be a string or number",
               errorRawMessage := some raw }
  let rv ← getProp error "reason"
  let f2 : ErrorFields ←
    match rv with
    | .undef => pure f1
    | .str s => pure { f1 with errorReason := some s }
    | .number n => pure { f1 with errorReason := some (toString n) }
    | v => do
        let raw ← jsToString v
        pure { f1 with
               errorFormatInvalid := true,
               errorFormatError := appendFormatError f1.errorFormatError "error.reason must be a string or number",
               errorRawReason := some raw }
  let dv ← getProp error "details"
  let f3 : ErrorFields ←
    match dv with
    | .undef => pure f2
    | .str s => pure { f2 with errorDetails := some s }
    | .number n => pure { f2 with errorDetails := some (toString n) }
    | v => do
        let raw ← jsToString v
        pure { f2 with
               errorFormatInvalid := true,
               errorFormatError := appendFormatError f2.errorFormatError "error.details must be a string or number",
               errorRawDetails := some raw }
  let sv ← getProp error "stack"
  match sv with
  | .undef => return f3
  | .str s => return { f3 with errorStack := some s }
  | _ => return { f3 with
                  errorFormatInvalid := true,
                  errorFormatError := appendFormatError f3.errorFormatError "error.stack must be a string" }

/-- The `catch` block of `extractErrorFields` (errors.js lines 170-177).
It reads `extractionError.message`, converts it with a template literal and
calls `String(error)`; each of these can itself throw, and such a throw
escapes `extractErrorFields` (the catch block is not protected). -/
def extractCatch (error exn : JSVal) : Except JSVal ErrorFields := do
  let mv ← getProp exn "message"
  let ms ← jsToString mv
  let raw ← jsToString error
  pure { errorFormatInvalid := true,
         errorFormatError := some ("Failed to extract error fields: " ++ ms),
         errorRawValue := some raw }

/-- `extractErrorFields` (errors.js lines 94-178, the current version):
falsy input gives the empty mapping, otherwise the try body runs and any
throw is handed to the catch block. -/
def extractErrorFields (error : JSVal) : Except JSVal ErrorFields :=
  if !truthy error then .ok {}
  else
    match extractTry error with
    | .ok f => .ok f
    | .error exn => extractCatch error exn

/-- `value.includes(pat)` as invoked by `shouldTreatAsWarning`:
`String.prototype.includes` is a substring test, `Array.prototype.includes`
is an element (strict) equality test, and every other modelled value has no
callable `includes`, so the call throws a `TypeError`. -/
def jsIncludes (v : JSVal) (pat : String) : Except JSVal Bool :=
  match v with
  | .str s => .ok (jsStrIncludes s pat)
  | .array es => .ok (jsArrayHasString es pat)
  | _ => .error (typeError "includes is not a function")
where
  /-- Strict-equality membership of a string in an array. -/
  jsArrayHasString : JSValList → String → Bool
    | .nil, _ => false
    | .cons (.str s) tl, p => s == p || jsArrayHasString tl p
    | .cons _ tl, p => jsArrayHasString tl p

/-- `patterns.some((pattern) => message.includes(pattern) || reason.includes(pattern))`
with JavaScript's left-to-right short-circuit evaluation. -/
def someIncludes (message reason : JSVal) : List String → Except JSVal Bool
  | [] => .ok false
  | p :: ps => do
      let a ← jsIncludes message p
      if a then .ok true
      else
        let b ← jsIncludes reason p
        if b then .ok true else someIncludes message reason ps

/-- `shouldTreatAsWarning` (errors.js lines 193-204): guard on falsy error or
empty pattern list, then `message = error.message || ''`,
`reason = error.reason || ''` (no string coercion!) and the `some` scan. -/
def shouldTreatAsWarning (error : JSVal) (patterns : List String) : Except JSVal Bool :=
  if !truthy error || patterns.isEmpty then .ok false
  else
    match getProp error "message" with
    | .error e => .error e
    | .ok mraw =>
      let message := if truthy mraw then mraw else .str ""
      match getProp error "reason" with
      | .error e => .error e
      | .ok rraw =>
        let reason := if truthy rraw then rraw else .str ""
        someIncludes message reason patterns

/-- `DEFAULT_WARNING_PATTERNS` (errors.js lines 210-216). -/
def DEFAULT_WARNING_PATTERNS : List String :=
  ["User not found", "Failed to fetch", "Load failed", "Network error", "Timeout"]

/-! ## src/utils/environment.js -/

/-- `getEnvironment` (environment.js lines 14-16):
`process.env.NODE_ENV || 'development'` — note that an unknown non-empty
value is returned as-is. -/
def getEnvironment (nodeEnv : Option String) : String :=
  match nodeEnv with
  | some s => if s != "" then s else "development"
  | none => "development"

/-- `isProduction` (environment.js lines 22-24). -/
def isProduction (nodeEnv : Option String) : Bool :=
  getEnvironment nodeEnv == "production"

/-- `isDevelopment` (environment.js lines 38-40): a strict comparison with
`'development'`, not "anything non-production". -/
def isDevelopment (nodeEnv : Option String) : Bool :=
  getEnvironment nodeEnv == "development"

/-- `getEnvironmentPrefix` (environment.js lines 46-52): empty for
production, otherwise the environment string followed by `"-"`. -/
def getEnvironmentPrefixStr (nodeEnv : Option String) : String :=
  let env := getEnvironment nodeEnv
  if env == "production" then "" else env ++ "-"

/-! ## src/transports/slack.js — `shouldHandle` -/

/-- The part of the `SlackTransport` state read by `shouldHandle`
(constructor, slack.js lines 42-53).  `webhookUrl` is optional and tested
for truthiness (`none` models `undefined`; `some ""` is also falsy). -/
structure SlackConfig where
  webhookUrl : Option String := none
  skipInDevelopment : Bool := true
  enabled : Bool := true
deriving Repr, DecidableEq

/-- Truthiness of an optional string-valued configuration field. -/
def optTruthy : Option String → Bool
  | some s => s != ""
  | none => false

/-- `SlackTransport.shouldHandle` (slack.js lines 62-81): disabled or no
webhook gives false; `skipInDevelopment && isDevelopment()` gives false;
otherwise membership in the literal list
`[LogLevels.WARN, LogLevels.ERROR, LogLevels.ERROR_BACKGROUND,
SlackLevels.WARN, SlackLevels.ERROR, SlackLevels.ERROR_BACKGROUND]`,
whose string values are kept verbatim (duplicates included). -/
def slackShouldHandle (cfg : SlackConfig) (nodeEnv : Option String) (level : String) : Bool :=
  if !cfg.enabled || !optTruthy cfg.webhookUrl then false
  else if cfg.skipInDevelopment && isDevelopment nodeEnv then false
  else ["warn", "error", "error-background", "warn", "error", "error-bg"].contains level

/-- The severity levels of the system: the `LogLevels` enum of
transports/base.js plus the literal `'log'` level used by `logger.log`. -/
def logSeverities : List String :=
  ["log", "debug", "verbose", "info", "warn", "error", "error-background"]

/-! ## src/logger.js — facade dispatch -/

/-- A dispatched entry: one call to `sendToTransports`, identified by the
severity and message it carries.  (The `args`/`fields` members and the
per-transport fan-out inside the asynchronous `sendToTransports` body are
not needed by the claims about dispatch counts and severities.) -/
structure Entry where
  level : String
  message : JSVal

/-- `validateErrorArgs` (logger.js lines 117-126); the `console.trace`
diagnostic is a local side effect outside the model. -/
def validateErrorArgs (args : List JSVal) : Bool :=
  if args.length == 0 || args.length > 2 then false else true

/-- `args[i]`: out-of-range access yields `undefined`. -/
def argGet (args : List JSVal) (i : Nat) : JSVal := (args.get? i).getD ( .undef)

/-- `logger.error(...args)` (logger.js lines 285-312), returning the list of
dispatched entries.  Throws (`Except.error`) when the synchronous prefix of
the method throws: `shouldTreatAsWarning` or the template-literal string
conversion of the message can throw on hostile values. -/
def loggerError (nodeEnv : Option String) (patterns : List String) (args : List JSVal) :
    Except JSVal (List Entry) :=
  if !validateErrorArgs args && isDevelopment nodeEnv then .ok []
  else
    let message := argGet args 0
    let error := argGet args 1
    if truthy error then
      match shouldTreatAsWarning error patterns with
      | .error e => .error e
      | .ok true =>
          match jsToString message with
          | .error e => .error e
          | .ok ms => .ok [⟨"warn", .str (ms ++ " [error treated as warn]")⟩]
      | .ok false => .ok [⟨"error", message⟩]
    else .ok [⟨"error", message⟩]

/-- `logger.errorBackground(...args)` (logger.js lines 325-353): same shape
as `error`, with the background suffix and the `error-background` level
(the extra `isBackground` field does not affect entry count or severity). -/
def loggerErrorBackground (nodeEnv : Option String) (patterns : List String) (args : List JSVal) :
    Except JSVal (List Entry) :=
  if !validateErrorArgs args && isDevelopment nodeEnv then .ok []
  else
    let message := argGet args 0
    let error := argGet args 1
    if truthy error then
      match shouldTreatAsWarning error patterns with
      | .error e => .error e
      | .ok true =>
          match jsToString message with
          | .error e => .error e
          | .ok ms => .ok [⟨"warn", .str (ms ++ " [background error treated as warn]")⟩]
      | .ok false => .ok [⟨"error-background", message⟩]
    else .ok [⟨"error-background", message⟩]

/-- The side condition under which the synchronous prefix of
`error`/`errorBackground` cannot throw: the reclassifier evaluates without
throwing, and if it demotes the call, the message's string conversion
succeeds. -/
def dispatchSafe (patterns : List String) (args : List JSVal) : Bool :=
  match shouldTreatAsWarning (argGet args 1) patterns with
  | .error _ => false
  | .ok false => true
  | .ok true => !throws (jsToString (argGet args 0))

/-- The configuration options of `createLogger` that feed its process-wide
environment side effect (logger.js lines 158-170 read only
`config.environment` for it). -/
structure LoggerConfig where
  environment : Option String := none
deriving Repr, DecidableEq

/-- The `process.env.NODE_ENV` mutation performed by `createLogger`
(logger.js lines 167-170): `if (config.environment) process.env.NODE_ENV =
config.environment` — the result is the new process-wide value. -/
def createLoggerEnvEffect (cfg : LoggerConfig) (nodeEnv : Option String) : Option String :=
  match cfg.environment with
  | some e => if e != "" then some e else nodeEnv
  | none => nodeEnv

/-! ## src/transports/slack.js — `sanitizeFields`, tree model (acyclic data)

`JVal` is the plain JavaScript data tree: exactly the values an acyclic,
getter-free fields mapping can hold (`bigint` is the JSON-unsafe leaf that
makes the serialization probe meaningful: `JSON.stringify` throws on it).
In a tree there is no aliasing, so the identity-based `WeakSet` of the
source can never contain a value when it is visited (each tree node is a
fresh identity), and the `seen` check is modelled as never firing; the heap
model below keeps it.  `Error` instances are not part of this data model,
so a non-serializable object takes the constructor-marker branch, as a
plain object (constructor `Object`) does in the source. -/

mutual
/-- A plain (getter-free, acyclic) JavaScript value. -/
inductive JVal where
  | undef
  | null
  | boolean (b : Bool)
  | number (n : Int)
  | str (s : String)
  | bigint (n : Int)
  | array (elems : JValList)
  | object (props : JPropList)
/-- Elements of a plain array. -/
inductive JValList where
  | nil
  | cons (hd : JVal) (tl : JValList)
/-- Properties of a plain object. -/
inductive JPropList where
  | nil
  | cons (name : String) (v : JVal) (tl : JPropList)
end

mutual
/-- Success of the `JSON.stringify(value)` probe on plain data: it fails
exactly when a `bigint` is reachable (cycles cannot occur in a tree). -/
def jsonStringifyOk : JVal → Bool
  | .bigint _ => false
  | .array es => jsonStringifyOkList es
  | .object ps => jsonStringifyOkProps ps
  | _ => true
def jsonStringifyOkList : JValList → Bool
  | .nil => true
  | .cons v tl => jsonStringifyOk v && jsonStringifyOkList tl
def jsonStringifyOkProps : JPropList → Bool
  | .nil => true
  | .cons _ v tl => jsonStringifyOk v && jsonStringifyOkProps tl
end

mutual
/-- `sanitizeValue` of `SlackTransport.sanitizeFields` (slack.js lines
174-227) on plain tree data: depth guard first, then `null`/`undefined` and
primitives pass through, arrays recurse element-wise at `depth + 1`,
objects are probed with `JSON.stringify` and either passed through whole or
replaced by a marker, and a `bigint` reaches the final `String(value)`
fallback.  Objects are never recursed into. -/
def sanitizeValue (v : JVal) (depth : Nat) : JVal :=
  if depth > 5 then .str "[Max depth reached]"
  else
    match v with
    | .null => .null
    | .undef => .undef
    | .str s => .str s
    | .number n => .number n
    | .boolean b => .boolean b
    | .array es => .array (sanitizeList es (depth + 1))
    | .object ps =>
        if jsonStringifyOk (.object ps) then .object ps
        else .str "[Non-serializable Object]"
    | .bigint n => .str (toString n)
def sanitizeList : JValList → Nat → JValList
  | .nil, _ => .nil
  | .cons v tl, depth => .cons (sanitizeValue v depth) (sanitizeList tl depth)
end

/-- `SlackTransport.sanitizeFields` (slack.js lines 170-239) on plain tree
data: every field value is sanitized from depth 0.  On getter-free data the
per-field `try`/`catch` has nothing to catch. -/
def sanitizeFields (fields : List (String × JVal)) : List (String × JVal) :=
  fields.map (fun kv => (kv.1, sanitizeValue kv.2 0))

/-! ## src/transports/slack.js — `sanitizeFields`, heap model (cyclic data)

To state anything about cyclic object graphs (`a.self = a`) the values are
represented as a heap: a value is an index into a list of nodes, and a node
stores the indices of its children, so reference cycles and aliasing are
expressible and index identity is JavaScript object identity.  The
recursion of `sanitizeValue` is modelled with explicit fuel, one unit per
nesting level; the theorem for C9 shows the result is already stable at
fuel 7, i.e. the source's recursion is bounded by the depth guard even on
cyclic inputs. -/

/-- A heap node of plain JavaScript data; children are heap indices. -/
inductive HNode where
  | undef
  | null
  | boolean (b : Bool)
  | number (n : Int)
  | str (s : String)
  | bigint (n : Int)
  | array (elems : List Nat)
  | object (props : List (String × Nat))
deriving Repr, DecidableEq

/-- A sanitized output value.  `objRef i` is an object passed through
as-is, by reference, after a successful serialization probe. -/
inductive SOut where
  | undef
  | null
  | boolean (b : Bool)
  | number (n : Int)
  | str (s : String)
  | array (elems : List SOut)
  | objRef (i : Nat)
deriving Repr

/-- No reference cycle is reachable from `idx` (the `path` is the chain of
ancestors of the current node): this is exactly when `JSON.stringify`
succeeds on plain heap data.  The fuel is instantiated below with more
than the number of heap nodes, which any acyclic path length is below. -/
def noCycleFrom (heap : List HNode) : Nat → List Nat → Nat → Bool
  | 0, _, _ => false
  | fuel + 1, path, idx =>
    if path.contains idx then false
    else
      match heap.get? idx with
      | some (.array es) => es.all (fun i => noCycleFrom heap fuel (idx :: path) i)
      | some (.object ps) => ps.all (fun p => noCycleFrom heap fuel (idx :: path) p.2)
      | some (.bigint _) => false
      | _ => true

/-- Success of the `JSON.stringify(value)` probe on heap data: no reachable
cycle and no reachable `bigint`. -/
def stringifyOkH (heap : List HNode) (idx : Nat) : Bool :=
  noCycleFrom heap (heap.length + 1) [] idx

/-- `sanitizeValue` (slack.js lines 174-227) on heap data, with the shared
`seen` set threaded through (the source's per-call `WeakSet`: objects are
added before the probe; arrays are not added).  A dangling index is treated
as `undefined`.  `Error` instances are outside the plain-data model, so a
failed probe takes the constructor-marker branch.  Fuel is consumed once
per nesting level; the fuel-exhaustion result mirrors the depth marker and
is unreachable at the fuel the wrapper passes (theorem C9). -/
def sanitizeValueH (heap : List HNode) : Nat → Nat → Nat → List Nat → SOut × List Nat
  | 0, _, _, seen => (.str "[Max depth reached]", seen)
  | fuel + 1, idx, depth, seen =>
    if depth > 5 then (.str "[Max depth reached]", seen)
    else
      match heap.get? idx with
      | none => (.undef, seen)
      | some .undef => (.undef, seen)
      | some .null => (.null, seen)
      | some (.boolean b) => (.boolean b, seen)
      | some (.number n) => (.number n, seen)
      | some (.str s) => (.str s, seen)
      | some (.bigint n) => (.str (toString n), seen)
      | some (.array es) =>
          let r := es.foldl
            (fun (acc : List SOut × List Nat) i =>
              let r := sanitizeValueH heap fuel i (depth + 1) acc.2
              (acc.1 ++ [r.1], r.2))
            ([], seen)
          (.array r.1, r.2)
      | some (.object _) =>
          if seen.contains idx then (.str "[Circular Reference]", seen)
          else
            let seen1 := idx :: seen
            if stringifyOkH heap idx then (.objRef idx, seen1)
            else (.str "[Non-serializable Object]", seen1)

/-- `sanitizeFields` (slack.js lines 170-239) on heap data: one shared
`seen` set per call, each field sanitized from depth 0, in order. -/
def sanitizeFieldsH (heap : List HNode) (fuel : Nat) (fields : List (String × Nat)) :
    List (String × SOut) :=
  (fields.foldl
    (fun (acc : List (String × SOut) × List Nat) kv =>
      let r := sanitizeValueH heap fuel kv.2 0 acc.2
      (acc.1 ++ [(kv.1, r.1)], r.2))
    ([], [])).1


/-! ## Helper definitions and lemmas for the theorems -/

/-- The property `k` of `e` can be read without throwing and is a string or
falsy (exactly the inputs on which `error.message || ''` behaves like
"extract as string, empty when absent"). -/
def propStrOrFalsy (e : JSVal) (k : String) : Bool :=
  match getProp e k with
  | .ok (.str _) => true
  | .ok v => !truthy v
  | .error _ => false

/-- The string that `error.k || ''` denotes on a screened property. -/
def extractedPropStr (e : JSVal) (k : String) : String :=
  match getProp e k with
  | .ok (.str s) => s
  | _ => ""

/-- Evaluation of the `patterns.some(...)` scan when both scrutinees are
strings. -/
theorem someIncludes_str (a b : String) (ps : List String) :
    someIncludes (.str a) (.str b) ps =
      .ok (ps.any fun p => jsStrIncludes a p || jsStrIncludes b p) := by
  induction ps with
  | nil => rfl
  | cons p ps ih =>
      simp only [someIncludes, jsIncludes, List.any_cons]
      by_cases h1 : jsStrIncludes a p
      · simp only [h1, Bool.true_or]
        rfl
      · simp only [Bool.not_eq_true] at h1
        by_cases h2 : jsStrIncludes b p
        · simp only [h1, h2, Bool.false_or, Bool.true_or]
          rfl
        · simp only [Bool.not_eq_true] at h2
          simp only [h1, h2, Bool.false_or]
          exact ih

/-- On a screened property, `error.k || ''` collapses to
`.str (extractedPropStr e k)`. -/
theorem screened_prop_collapse (e : JSVal) (k : String) (h : propStrOrFalsy e k = true) :
    ∃ v, getProp e k = .ok v ∧
      (if truthy v then v else .str "") = .str (extractedPropStr e k) := by
  unfold propStrOrFalsy at h
  unfold extractedPropStr
  rcases hg : getProp e k with exn | v
  · rw [hg] at h; exact absurd h (by simp)
  · rw [hg] at h
    refine ⟨v, rfl, ?_⟩
    match v with
    | .str s =>
        by_cases hs : s = ""
        · subst hs; simp [truthy]
        · simp [truthy, hs]
    | .undef => simp [truthy]
    | .null => simp [truthy]
    | .boolean b => simp only [truthy] at h ⊢; simp at h; simp [h]
    | .number n => simp only [truthy] at h ⊢; simp at h; simp [h]
    | .array es => simp [truthy] at h
    | .object a b c => simp [truthy] at h

/-- Workhorse evaluation of `shouldTreatAsWarning` on errors whose
`message`/`reason` properties are screened (readable, string-or-falsy). -/
theorem shouldTreatAsWarning_eval (e : JSVal) (ps : List String)
    (hm : propStrOrFalsy e "message" = true) (hr : propStrOrFalsy e "reason" = true) :
    shouldTreatAsWarning e ps =
      .ok (truthy e && !ps.isEmpty &&
        ps.any (fun p => jsStrIncludes (extractedPropStr e "message") p
          || jsStrIncludes (extractedPropStr e "reason") p)) := by
  unfold shouldTreatAsWarning
  by_cases ht : truthy e
  · by_cases hemp : ps.isEmpty
    · have : ps = [] := List.isEmpty_iff.mp hemp
      subst this
      simp [ht]
    · have hemp2 : ps.isEmpty = false := by simpa using hemp
      obtain ⟨mv, hmv, hmc⟩ := screened_prop_collapse e "message" hm
      obtain ⟨rv, hrv, hrc⟩ := screened_prop_collapse e "reason" hr
      simp only [ht, hemp2, hmv, hrv, Bool.not_true, Bool.or_false, Bool.true_and,
        Bool.not_false, if_false]
      rw [hmc, hrc, someIncludes_str]
      rfl
  · simp [ht]

/-- `args[i]` on a cons at index 0. -/
theorem argGet_cons_zero (a : JSVal) (l : List JSVal) : argGet (a :: l) 0 = a := rfl

/-- An error object with a numeric (truthy, non-string) `message`: on it the
source evaluates `(42).includes(pattern)`, which throws. -/
def numericMessageErr : JSVal :=
  .object (.cons "message" false (.number 42) .nil) false (.str "[object Object]")

/-- C5, counterexample: the claim says `shouldTreatAsWarning` never raises,
but on an error whose `message` is the number 42 (a present, truthy,
non-string value) the call throws a `TypeError` (`message.includes` is not
a function), instead of returning the `false` the claim's iff predicts. -/
theorem c5_numeric_message_counterexample :
    throws (shouldTreatAsWarning numericMessageErr ["x"]) = true ∧
    truthy numericMessageErr = true := ⟨rfl, rfl⟩

/-- C5 (amended): on error values whose `message` and `reason` properties
read without throwing and are strings or falsy, `shouldTreatAsWarning`
never raises and returns true exactly when the error is truthy, the
pattern list is non-empty, and some pattern is a case-sensitive substring
of the extracted message or reason string (empty string when absent or
falsy); in particular it returns false for an empty pattern list. -/
theorem c5_reclassifier_characterization (e : JSVal) (ps : List String)
    (hm : propStrOrFalsy e "message" = true) (hr : propStrOrFalsy e "reason" = true) :
    shouldTreatAsWarning e ps =
      .ok (truthy e && !ps.isEmpty &&
        ps.any (fun p => jsStrIncludes (extractedPropStr e "message") p
          || jsStrIncludes (extractedPropStr e "reason") p)) :=
  shouldTreatAsWarning_eval e ps hm hr

/-- An ordinary error object carrying the message `User not found`. -/
def userNotFoundErr : JSVal :=
  .object (.cons "message" false (.str "User not found") .nil) false (.str "[object Object]")

/-- Witness for C5 at a concrete screened error and one matching pattern. -/
theorem c5_reclassifier_characterization_witness :
    shouldTreatAsWarning userNotFoundErr ["not found"] = .ok true := by
  have h := c5_reclassifier_characterization userNotFoundErr ["not found"] rfl rfl
  exact h.trans (by rfl)

/-- An error object whose message matches the default pattern `Timeout`
but whose `reason` is the number 42. -/
def timeoutHostileReasonErr : JSVal :=
  .object (.cons "message" false (.str "Timeout occurred")
    (.cons "reason" false (.number 42) .nil)) false (.str "[object Object]")

/-- C7, counterexample: the message of the supplied error contains the
default pattern `Timeout`, yet `error("m", e)` raises (first the
non-matching pattern `User not found` is tested against the numeric
`reason`, and `(42).includes` throws) and dispatches nothing, instead of
dispatching one warn entry as the claim states. -/
theorem c7_hostile_reason_counterexample :
    jsStrIncludes "Timeout occurred" "Timeout" = true ∧
    "Timeout" ∈ DEFAULT_WARNING_PATTERNS ∧
    isDevelopment (some "production") = false ∧
    throws (loggerError (some "production") DEFAULT_WARNING_PATTERNS
      [.str "m", timeoutHostileReasonErr]) = true := by
  refine ⟨rfl, by simp [DEFAULT_WARNING_PATTERNS], rfl, rfl⟩

/-- An error object with a string message, an optional string reason and no
other properties. -/
def mkPatternError (emsg : String) (rs : Option String) : JSVal :=
  .object (.cons "message" false (.str emsg)
    (match rs with
     | some r => .cons "reason" false (.str r) .nil
     | none => .nil)) false (.str "[object Object]")

/-- C7 (amended): for every message string and every error object whose
`message` is a string containing one of the default reclassification
patterns and whose `reason` is absent or a string, `error(message, e)`
dispatches exactly one entry, at warn severity, with the suffix
`" [error treated as warn]"` appended to the message — in every
environment. -/
theorem c7_default_pattern_downgrade (nodeEnv : Option String) (msg emsg : String)
    (rs : Option String)
    (h : ∃ p ∈ DEFAULT_WARNING_PATTERNS, jsStrIncludes emsg p = true) :
    loggerError nodeEnv DEFAULT_WARNING_PATTERNS [.str msg, mkPatternError emsg rs] =
      .ok [⟨"warn", .str (msg ++ " [error treated as warn]")⟩] := by
  have hm : propStrOrFalsy (mkPatternError emsg rs) "message" = true := by
    cases rs <;> rfl
  have hr : propStrOrFalsy (mkPatternError emsg rs) "reason" = true := by
    cases rs <;> rfl
  have hms : extractedPropStr (mkPatternError emsg rs) "message" = emsg := by
    cases rs <;> rfl
  have ht : truthy (mkPatternError emsg rs) = true := rfl
  have hany : (DEFAULT_WARNING_PATTERNS.any fun p =>
      jsStrIncludes (extractedPropStr (mkPatternError emsg rs) "message") p
        || jsStrIncludes (extractedPropStr (mkPatternError emsg rs) "reason") p) = true := by
    rw [hms]
    obtain ⟨p, hp, hinc⟩ := h
    exact List.any_eq_true.mpr ⟨p, hp, by simp [hinc]⟩
  have hw : shouldTreatAsWarning (mkPatternError emsg rs) DEFAULT_WARNING_PATTERNS = .ok true := by
    rw [shouldTreatAsWarning_eval _ _ hm hr, ht, hany]
    rfl
  have hva : validateErrorArgs [JSVal.str msg, mkPatternError emsg rs] = true := rfl
  simp only [loggerError, hva, Bool.not_true, Bool.false_and, Bool.false_eq_true, if_false,
    argGet, List.get?, Option.getD, ht, hw, if_true]
  simp [jsToString]

/-- Witness for C7 at a concrete message and error. -/
theorem c7_default_pattern_downgrade_witness :
    loggerError (some "staging") DEFAULT_WARNING_PATTERNS
      [.str "m", mkPatternError "User not found" none] =
      .ok [⟨"warn", .str "m [error treated as warn]"⟩] :=
  c7_default_pattern_downgrade (some "staging") "m" "User not found" none
    ⟨"User not found", by simp [DEFAULT_WARNING_PATTERNS], rfl⟩

/-- C6, counterexample: a 3-argument call `error("m", e, "x")` outside
development, where `e` has a numeric `message`, raises out of the facade
(`shouldTreatAsWarning` throws) and dispatches nothing, instead of
dispatching exactly one entry as the claim states for every such call. -/
theorem c6_arity_violation_hostile_counterexample :
    isDevelopment (some "production") = false ∧
    throws (loggerError (some "production") DEFAULT_WARNING_PATTERNS
      [.str "m", numericMessageErr, .str "x"]) = true := ⟨rfl, rfl⟩

/-- C6 (amended): a call to `error`/`errorBackground` with zero or more
than two arguments dispatches nothing in the development environment; in a
non-development environment it dispatches exactly one entry, provided the
reclassifier evaluates without throwing on the (extra) second argument and,
when it demotes the call, the message's string conversion succeeds
(`dispatchSafe`) — hostile arguments can instead make the call raise and
dispatch nothing. -/
theorem c6_arity_violation_dispatch_count (nodeEnv : Option String) (patterns : List String)
    (args : List JSVal) (h : args.length = 0 ∨ 2 < args.length) :
    (isDevelopment nodeEnv = true →
      loggerError nodeEnv patterns args = .ok []
      ∧ loggerErrorBackground nodeEnv patterns args = .ok [])
    ∧ (isDevelopment nodeEnv = false → dispatchSafe patterns args = true →
      Except.map List.length (loggerError nodeEnv patterns args) = .ok 1
      ∧ Except.map List.length (loggerErrorBackground nodeEnv patterns args) = .ok 1) := by
  have hva : validateErrorArgs args = false := by
    rcases h with h | h
    · simp [validateErrorArgs, h]
    · have h2 : args.length > 2 := h
      simp [validateErrorArgs, h2]
  constructor
  · intro hd
    constructor <;> simp [loggerError, loggerErrorBackground, hva, hd]
  · intro hd2 hsafe
    by_cases hterr : truthy (argGet args 1)
    · rcases hst : shouldTreatAsWarning (argGet args 1) patterns with exn | w
      · exfalso
        unfold dispatchSafe at hsafe
        rw [hst] at hsafe
        simp at hsafe
      · cases w with
        | false =>
            constructor <;>
              simp [loggerError, loggerErrorBackground, hva, hd2, hterr, hst, Except.map]
        | true =>
            unfold dispatchSafe at hsafe
            rw [hst] at hsafe
            rcases hjs : jsToString (argGet args 0) with e2 | ms
            · rw [hjs] at hsafe
              simp [throws] at hsafe
            · constructor <;>
                simp [loggerError, loggerErrorBackground, hva, hd2, hterr, hst, hjs, Except.map]
    · constructor <;>
        simp [loggerError, loggerErrorBackground, hva, hd2, hterr, Except.map]

/-- Witness for C6 at a concrete 3-argument call outside development. -/
theorem c6_arity_violation_dispatch_count_witness :
    Except.map List.length (loggerError (some "production") DEFAULT_WARNING_PATTERNS
      [.str "a", .str "b", .str "c"]) = .ok 1 ∧
    Except.map List.length (loggerErrorBackground (some "production") DEFAULT_WARNING_PATTERNS
      [.str "a", .str "b", .str "c"]) = .ok 1 ∧
    loggerError (some "development") DEFAULT_WARNING_PATTERNS [] = .ok [] := by
  have h1 := (c6_arity_violation_dispatch_count (some "production") DEFAULT_WARNING_PATTERNS
    [.str "a", .str "b", .str "c"] (Or.inr (by norm_num))).2 (by rfl) (by rfl)
  have h2 := (c6_arity_violation_dispatch_count (some "development") DEFAULT_WARNING_PATTERNS
    [] (Or.inl rfl)).1 (by rfl)
  exact ⟨h1.1, h1.2, h2.1⟩

/-- A hostile error object: reading `message` throws the string `"boom"`,
and its own string conversion throws the string `"boom2"`. -/
def hostileToStrErr : JSVal :=
  .object (.cons "message" true (.str "boom") .nil) true (.str "boom2")

/-- C1, evaluation at the failing input: on an object whose `message`
getter throws and whose `toString` throws, `extractErrorFields` raises (the
`catch` block's own `String(error)` re-throws), contradicting the contract
that the normalizer is total and never raises. -/
theorem c1_extract_raises_on_hostile :
    extractErrorFields hostileToStrErr = .error (.str "boom2") ∧
    throws (extractErrorFields hostileToStrErr) = true := ⟨rfl, rfl⟩

/-- C2, counterexample: `false` is a non-object (boolean) input, but
`extractErrorFields(false)` takes the falsy-input early return and yields
the empty mapping — no `errorFormatInvalid` and no `errorRawValue` — not
the invalid-format mapping the claim asserts for every non-object input. -/
theorem c2_falsy_boolean_counterexample :
    extractErrorFields (.boolean false) = .ok {} ∧
    ({} : ErrorFields).errorFormatInvalid = false ∧
    ({} : ErrorFields).errorRawValue = none := ⟨rfl, rfl, rfl⟩

/-- C2 (amended): for every truthy non-object input (non-empty string,
non-zero number, `true`), `extractErrorFields` returns the invalid-format
mapping whose `errorRawValue` is `String(e)`; falsy non-objects (`""`,
`0`, `false`) instead return the empty mapping via the `!error` guard. -/
theorem c2_truthy_nonobject_invalid_format (e : JSVal)
    (htype : typeofStr e = "string" ∨ typeofStr e = "number" ∨ typeofStr e = "boolean")
    (ht : truthy e = true) :
    throws (jsToString e) = false ∧
    extractErrorFields e = (jsToString e).map (fun raw =>
      { errorFormatInvalid := true,
        errorFormatError := some ("Expected error to be an object, but received " ++ typeofStr e),
        errorRawValue := some raw }) := by
  cases e with
  | undef => simp [typeofStr] at htype
  | null => simp [typeofStr] at htype
  | array es => simp [typeofStr] at htype
  | object p t tv => simp [typeofStr] at htype
  | boolean b =>
      cases b with
      | false => simp [truthy] at ht
      | true => exact ⟨rfl, rfl⟩
  | number n =>
      refine ⟨rfl, ?_⟩
      simp [extractErrorFields, ht, extractTry, jsToString, typeofStr, Except.map]
  | str s =>
      refine ⟨rfl, ?_⟩
      simp [extractErrorFields, ht, extractTry, jsToString, typeofStr, Except.map]

/-- Witness for C2 at the number 5. -/
theorem c2_truthy_nonobject_invalid_format_witness :
    extractErrorFields (.number 5) =
      .ok { errorFormatInvalid := true,
            errorFormatError := some "Expected error to be an object, but received number",
            errorRawValue := some "5" } := by
  have h := (c2_truthy_nonobject_invalid_format (.number 5) (Or.inr (Or.inl rfl)) (by rfl)).2
  exact h.trans (by rfl)

/-- C3, counterexample: with the skip flag set (its default), a configured
webhook and the enabled default, in the staging environment — which is
neither production nor development — `shouldHandle('warn')` returns `true`,
while the claim asserts it is false for every non-production environment. -/
theorem c3_staging_counterexample :
    slackShouldHandle { webhookUrl := some "https://example.com/hook" } (some "staging") "warn"
      = true ∧
    isProduction (some "staging") = false ∧
    isDevelopment (some "staging") = false := ⟨rfl, rfl, rfl⟩

/-- C3 (amended): the skip flag suppresses the sink exactly in the
development environment; staging is not skipped.  When the sink is enabled,
a default webhook is configured and the development-skip does not apply,
`shouldHandle` is true exactly for the `warn`, `error` and
`error-background` severities. -/
theorem c3_skip_development_and_level_gate (cfg : SlackConfig) (nodeEnv : Option String)
    (level : String) :
    (cfg.skipInDevelopment = true → isDevelopment nodeEnv = true →
      slackShouldHandle cfg nodeEnv level = false)
    ∧ (cfg.enabled = true → optTruthy cfg.webhookUrl = true →
      (cfg.skipInDevelopment && isDevelopment nodeEnv) = false →
      level ∈ logSeverities →
      slackShouldHandle cfg nodeEnv level =
        (["warn", "error", "error-background"] : List String).contains level) := by
  constructor
  · intro hskip hdev
    unfold slackShouldHandle
    by_cases he : (!cfg.enabled || !optTruthy cfg.webhookUrl) = true
    · simp [he]
    · have he2 : (!cfg.enabled || !optTruthy cfg.webhookUrl) = false := by simpa using he
      simp [he2, hskip, hdev]
  · intro hen hweb hskip hlev
    fin_cases hlev <;> simp [slackShouldHandle, hen, hweb, hskip]

/-- Witness for C3 in production at the `error` severity. -/
theorem c3_skip_development_and_level_gate_witness :
    slackShouldHandle { webhookUrl := some "https://example.com/hook" } (some "production")
      "error" = true := by
  have h := (c3_skip_development_and_level_gate { webhookUrl := some "https://example.com/hook" }
    (some "production") "error").2 rfl rfl (by rfl) (by simp [logSeverities])
  exact h.trans (by rfl)

/-- C4, counterexample: for the external value `"qa"` the classifier
returns `"qa"` — not `"development"` — and the destination prefix is
`"qa-"` — not `"development-"`; the classifier's range is not limited to
the three known environments. -/
theorem c4_unknown_env_counterexample :
    getEnvironment (some "qa") = "qa" ∧
    getEnvironment (some "qa") ≠ "development" ∧
    getEnvironmentPrefixStr (some "qa") = "qa-" ∧
    getEnvironmentPrefixStr (some "qa") ≠ "development-" :=
  ⟨rfl, by decide, rfl, by decide⟩

/-- C4 (amended): the classifier returns the external string itself when it
is present and non-empty, and `"development"` when it is absent or empty
(so the prefix is `"development-"` exactly then); the destination prefix is
empty exactly for production and `env ++ "-"` otherwise. -/
theorem c4_environment_prefix_characterization (nodeEnv : Option String) :
    (getEnvironmentPrefixStr nodeEnv = "" ↔ getEnvironment nodeEnv = "production")
    ∧ ((nodeEnv = none ∨ nodeEnv = some "") →
        getEnvironment nodeEnv = "development" ∧
        getEnvironmentPrefixStr nodeEnv = "development-")
    ∧ (∀ s : String, nodeEnv = some s → s ≠ "" → getEnvironment nodeEnv = s)
    ∧ (getEnvironment nodeEnv ≠ "production" →
        getEnvironmentPrefixStr nodeEnv = getEnvironment nodeEnv ++ "-") := by
  refine ⟨?_, ?_, ?_, ?_⟩
  · unfold getEnvironmentPrefixStr
    by_cases hp : getEnvironment nodeEnv = "production"
    · simp [hp]
    · have hne : (getEnvironment nodeEnv == "production") = false := by simp [hp]
      simp only [hne, Bool.false_eq_true, if_false]
      constructor
      · intro hcontra
        have hlen := congrArg String.length hcontra
        rw [String.length_append] at hlen
        have h1 : ("-" : String).length = 1 := rfl
        have h0 : ("" : String).length = 0 := rfl
        rw [h1, h0] at hlen
        omega
      · intro hcontra
        exact absurd hcontra hp
  · rintro (rfl | rfl) <;> exact ⟨rfl, rfl⟩
  · rintro s rfl hs
    simp [getEnvironment, hs]
  · intro hp
    unfold getEnvironmentPrefixStr
    simp [hp]

/-- Witness for C4 at production, an absent variable, and an unknown
value. -/
theorem c4_environment_prefix_characterization_witness :
    getEnvironmentPrefixStr (some "production") = "" ∧
    getEnvironment none = "development" ∧
    getEnvironmentPrefixStr none = "development-" ∧
    getEnvironment (some "qa2") = "qa2" :=
  ⟨(c4_environment_prefix_characterization (some "production")).1.mpr rfl,
   ((c4_environment_prefix_characterization none).2.1 (Or.inl rfl)).1,
   ((c4_environment_prefix_characterization none).2.1 (Or.inl rfl)).2,
   (c4_environment_prefix_characterization (some "qa2")).2.2.1 "qa2" rfl (by decide)⟩

/-- C10: when the factory configuration supplies a (truthy) environment,
`createLogger` overwrites the process-wide `NODE_ENV`, and every subsequent
environment read — the classifier, and through it the development-skip test
of every Slack sink built from any configuration — observes the new value. -/
theorem c10_environment_override_global (cfg : LoggerConfig) (nodeEnv : Option String)
    (e : String) (h1 : cfg.environment = some e) (h2 : e ≠ "") :
    createLoggerEnvEffect cfg nodeEnv = some e
    ∧ getEnvironment (createLoggerEnvEffect cfg nodeEnv) = e
    ∧ isDevelopment (createLoggerEnvEffect cfg nodeEnv) = (e == "development")
    ∧ ∀ (scfg : SlackConfig) (level : String),
        slackShouldHandle scfg (createLoggerEnvEffect cfg nodeEnv) level =
          slackShouldHandle scfg (some e) level := by
  have hset : createLoggerEnvEffect cfg nodeEnv = some e := by
    simp [createLoggerEnvEffect, h1, h2]
  refine ⟨hset, ?_, ?_, ?_⟩
  · rw [hset]
    simp [getEnvironment, h2]
  · rw [hset]
    simp [isDevelopment, getEnvironment, h2]
  · intro scfg level
    rw [hset]

/-- Witness for C10: overriding a development process to production. -/
theorem c10_environment_override_global_witness :
    createLoggerEnvEffect { environment := some "production" } (some "development")
      = some "production"
    ∧ getEnvironment (createLoggerEnvEffect { environment := some "production" }
        (some "development")) = "production" := by
  have h := c10_environment_override_global { environment := some "production" }
    (some "development") "production" rfl (by decide)
  exact ⟨h.1, h.2.1⟩

mutual
/-- Idempotence of the sanitizer at every value and depth (see C8). -/
theorem sanitizeValue_idem (v : JVal) (d : Nat) :
    sanitizeValue (sanitizeValue v d) d = sanitizeValue v d := by
  by_cases hd : d > 5
  · simp [sanitizeValue.eq_def, hd]
  · cases v with
    | null => simp [sanitizeValue.eq_def, hd]
    | undef => simp [sanitizeValue.eq_def, hd]
    | str s => simp [sanitizeValue.eq_def, hd]
    | number n => simp [sanitizeValue.eq_def, hd]
    | boolean b => simp [sanitizeValue.eq_def, hd]
    | bigint n => simp [sanitizeValue.eq_def, hd]
    | array es =>
        simp only [sanitizeValue.eq_def, hd, if_false]
        rw [sanitizeList_idem es (d + 1)]
    | object ps =>
        by_cases hok : jsonStringifyOk (.object ps)
        · simp [sanitizeValue.eq_def, hd, hok]
        · simp [sanitizeValue.eq_def, hd, hok]

/-- Element-wise idempotence over array elements (see C8). -/
theorem sanitizeList_idem (l : JValList) (d : Nat) :
    sanitizeList (sanitizeList l d) d = sanitizeList l d := by
  cases l with
  | nil => rfl
  | cons v tl =>
      simp only [sanitizeList]
      rw [sanitizeValue_idem v d, sanitizeList_idem tl d]
end

/-- C8: field sanitization is idempotent — for a fields mapping of acyclic
JSON-serializable values (every value passes the serialization probe),
sanitizing twice equals sanitizing once.  (On the tree data model this even
holds without the serialization hypothesis, since failed probes are
replaced by marker strings, which are fixed points.) -/
theorem c8_sanitize_idempotent (fields : List (String × JVal))
    (_h : (fields.all fun kv => jsonStringifyOk kv.2) = true) :
    sanitizeFields (sanitizeFields fields) = sanitizeFields fields := by
  unfold sanitizeFields
  rw [List.map_map]
  apply List.map_congr_left
  intro kv _
  simp only [Function.comp]
  rw [sanitizeValue_idem]

/-- Witness for C8 at a concrete JSON-safe fields mapping. -/
theorem c8_sanitize_idempotent_witness :
    sanitizeFields (sanitizeFields
      [("a", .str "x"), ("b", .array (.cons (.number 1) .nil))]) =
    sanitizeFields [("a", .str "x"), ("b", .array (.cons (.number 1) .nil))] :=
  c8_sanitize_idempotent [("a", .str "x"), ("b", .array (.cons (.number 1) .nil))] (by rfl)

/-- Pointwise-equal step functions fold identically. -/
theorem foldl_congr_fun {α β : Type} (l : List β) (f g : α → β → α) (a : α)
    (h : ∀ acc x, f acc x = g acc x) : l.foldl f a = l.foldl g a := by
  induction l generalizing a with
  | nil => rfl
  | cons x xs ih => rw [List.foldl_cons, List.foldl_cons, h, ih]

/-- The heap sanitizer's result does not depend on the fuel once the fuel
covers the depth guard: recursion is bounded even on cyclic heaps. -/
theorem sanitizeValueH_fuel_stable (heap : List HNode) :
    ∀ (f g idx depth : Nat) (seen : List Nat),
      7 - depth ≤ f → 1 ≤ f → 7 - depth ≤ g → 1 ≤ g →
      sanitizeValueH heap f idx depth seen = sanitizeValueH heap g idx depth seen := by
  intro f
  induction f with
  | zero =>
      intro g idx depth seen _ h1 _ _
      exact absurd h1 (by omega)
  | succ f ih =>
      intro g idx depth seen hbf _ hbg hg1
      obtain ⟨g', rfl⟩ : ∃ g', g = g' + 1 := ⟨g - 1, by omega⟩
      by_cases hd : depth > 5
      · simp [sanitizeValueH, hd]
      · simp only [sanitizeValueH, hd, if_false]
        cases hn : heap.get? idx with
        | none => rfl
        | some node =>
            cases node with
            | array es =>
                have hstep : ∀ (acc : List SOut × List Nat) (i : Nat),
                    (fun (acc : List SOut × List Nat) i =>
                      let r := sanitizeValueH heap f i (depth + 1) acc.2
                      (acc.1 ++ [r.1], r.2)) acc i
                    = (fun (acc : List SOut × List Nat) i =>
                      let r := sanitizeValueH heap g' i (depth + 1) acc.2
                      (acc.1 ++ [r.1], r.2)) acc i := by
                  intro acc i
                  simp only
                  rw [ih g' i (depth + 1) acc.2 (by omega) (by omega) (by omega) (by omega)]
                simp only [hn]
                rw [foldl_congr_fun _ _ _ _ hstep]
            | undef => rfl
            | null => rfl
            | boolean b => rfl
            | number n => rfl
            | str s => rfl
            | bigint n => rfl
            | object ps => rfl

/-- C9: for every heap — cyclic object graphs such as `a.self = a`
included — and every fields mapping, the sanitizer's recursion is bounded
by the depth guard: the result is already stable at fuel 7 (one fuel unit
per nesting level, depths 0 through 6), so there is no unbounded recursion
and no raise; and every value sitting beyond the depth limit of 5 is
replaced by the depth-exceeded marker. -/
theorem c9_sanitize_depth_bounded (heap : List HNode) (fields : List (String × Nat))
    (fuel idx depth : Nat) (seen : List Nat) :
    (7 ≤ fuel → sanitizeFieldsH heap fuel fields = sanitizeFieldsH heap 7 fields)
    ∧ (5 < depth → sanitizeValueH heap (fuel + 1) idx depth seen
        = (.str "[Max depth reached]", seen)) := by
  constructor
  · intro hf
    unfold sanitizeFieldsH
    congr 1
    apply foldl_congr_fun
    intro acc kv
    simp only
    rw [sanitizeValueH_fuel_stable heap fuel 7 kv.2 0 acc.2 (by omega) (by omega) (by omega)
      (by omega)]
  · intro hd
    simp [sanitizeValueH, hd]

/-- The one-node heap holding the self-referential object `a.self = a`. -/
def selfRefHeap : List HNode := [.object [("self", 0)]]

/-- Witness for C9 on the self-referential heap. -/
theorem c9_sanitize_depth_bounded_witness :
    sanitizeFieldsH selfRefHeap 9 [("a", 0)] = sanitizeFieldsH selfRefHeap 7 [("a", 0)] ∧
    sanitizeValueH selfRefHeap 8 0 6 [] = (.str "[Max depth reached]", []) :=
  ⟨(c9_sanitize_depth_bounded selfRefHeap [("a", 0)] 9 0 6 []).1 (by omega),
   (c9_sanitize_depth_bounded selfRefHeap [("a", 0)] 7 0 6 []).2 (by omega)⟩
